import Mathlib

/-!
Verification of the FlexTail component library's class-composition resolver
and the focus/group logic of its UI components.

The definitions below are shallow embeddings of the TypeScript source:
* `ClassValue`, `clsx`, `cn` — the in-repo flattener (`src/unnamed/part_000`,
  `src/components/ui/AlertDialog.tsx`, `src/components/ui/Card.tsx`);
* `twMerge` — the merger layer (the `tailwind-merge` dependency, whose code is
  not in the repository; modelled from the spec);
* `getColorClass`, `getButtonClassesP0`, `getButtonClassesP2` — the button
  class resolvers (`src/components/utils/FlexTail-config.ts`,
  `src/unnamed/part_000`, `src/unnamed/part_002`);
* ButtonGroup position tagging (`src/components/ui/Button.tsx`,
  `src/unnamed/part_001`);
* the AlertDialog focus trap (`src/components/ui/AlertDialog.tsx`).
-/

namespace FlexTail

/-! ## Definitions -/

/-- JS `.join(sep)` on a list of strings. -/
def joinWith (sep : String) : List String → String
  | [] => ""
  | [s] => s
  | s :: rest => s ++ sep ++ joinWith sep rest

/-- JS `.join(" ")`. -/
def joinSpace (l : List String) : String := joinWith " " l

/-- The `ClassValue` input type of the in-repo `clsx`
(`type ClassValue = string | number | ClassValue[] | { [key: string]: boolean } | null | undefined`).
A `bool` constructor is included because the JS runtime admits boolean operands
(e.g. `groupPosition !== "last" && "border-r …"` in `Button.tsx`), which fall
through `clsx`'s type tests exactly like `null`. -/
inductive ClassValue where
  | str : String → ClassValue
  | num : Int → ClassValue
  | bool : Bool → ClassValue
  | nullv : ClassValue
  | undefv : ClassValue
  | arr : List ClassValue → ClassValue
  | obj : List (String × Bool) → ClassValue

/-- The key list produced for a keyed boolean map:
`Object.entries(input).filter(([, value]) => !!value).map(([key]) => key)`. -/
def objKeys (entries : List (String × Bool)) : List String :=
  (entries.filter (fun p => p.2)).map (fun p => p.1)

mutual

/-- The inner recursive `clsx` of `part_000` / `AlertDialog.tsx` / `Card.tsx`:
strings pass through; arrays flatten depth-first with falsy (empty) results
filtered out and joined by spaces; objects contribute their truthy keys;
numbers, booleans, null and undefined hit no branch and return `""`. -/
def clsxOne : ClassValue → String
  | .str s => s
  | .arr l => joinSpace ((clsxList l).filter (fun s => !s.isEmpty))
  | .obj entries => joinSpace (objKeys entries)
  | .num _ => ""
  | .bool _ => ""
  | .nullv => ""
  | .undefv => ""

/-- `input.map(clsx)` for the array branch. -/
def clsxList : List ClassValue → List String
  | [] => []
  | v :: vs => clsxOne v :: clsxList vs

end

/-- The variadic `clsx(...inputs)`, which applies the inner function to the
array of its arguments. -/
def clsx (inputs : List ClassValue) : String := clsxOne (.arr inputs)

/-- Split a character list at every occurrence of `sep`; always returns at
least one (possibly empty) chunk. -/
def splitOnChar (sep : Char) : List Char → List (List Char)
  | [] => [[]]
  | c :: cs =>
    match splitOnChar sep cs with
    | [] => [[]]
    | t :: ts => if c = sep then [] :: t :: ts else (c :: t) :: ts

/-- Split a string at every occurrence of the character `sep`. -/
def splitString (sep : Char) (s : String) : List String :=
  (splitOnChar sep s.toList).map (fun l => String.mk l)

/-- Whitespace tokenisation of a class string: split on spaces, drop empty
chunks. -/
def tokenize (s : String) : List String :=
  (splitString ' ' s).filter (fun t => !t.isEmpty)

/-- Modelled from the spec: the recognised utility stems of the Merger's
"fixed rule set mapping known utility stems (spacing, color/background,
border-radius, sizing, etc.) to conflict groups".  The `tailwind-merge`
package that implements the Merger is an external dependency whose code is
not in the repository. -/
def recognizedStems : List String :=
  ["p", "px", "py", "pt", "pr", "pb", "pl",
   "m", "mx", "my", "mt", "mr", "mb", "ml",
   "bg", "text", "border", "rounded", "w", "h",
   "shadow", "ring", "gap", "opacity"]

/-- Modelled from the spec: the CategoryKey of a ClassToken, "derived from a
ClassToken by stripping the value suffix and retaining the prefix+stem";
"tokens whose stem is not recognized are never considered conflicting with
anything", so those get no key. -/
def categoryKey (t : String) : Option String :=
  let parts := splitString ':' t
  let base := parts.getLastD ""
  let stem := (splitString '-' base).headD ""
  if recognizedStems.contains stem then
    some (joinWith ":" (parts.dropLast ++ [stem]))
  else none

/-- Modelled from the spec: the Merger processes tokens in order keeping, for
each CategoryKey, only the last-seen full token; tokens without a CategoryKey
pass straight to the output. -/
def mergeTokens : List String → List String
  | [] => []
  | t :: rest =>
    match categoryKey t with
    | some k =>
      if rest.any (fun u => categoryKey u == some k) then mergeTokens rest
      else t :: mergeTokens rest
    | none => t :: mergeTokens rest

/-- Modelled from the spec: `twMerge`, the Merger applied to a flattened
space-separated token string, producing the surviving tokens space-joined. -/
def twMerge (s : String) : String := joinSpace (mergeTokens (tokenize s))

/-- `cn(...inputs) = twMerge(clsx(inputs))`, the full Class Composition
Resolver (`part_000` line 33, `AlertDialog.tsx` line 41,
`FlexTail-config.ts` line 4). -/
def cn (inputs : List ClassValue) : String := twMerge (clsx inputs)

/-- The recognised Tailwind palette (`TAILWIND_COLORS` in
`FlexTail-config.ts`). -/
def TAILWIND_COLORS : List String :=
  ["red", "orange", "amber", "yellow", "lime", "green", "emerald", "teal",
   "cyan", "sky", "blue", "indigo", "violet", "purple", "fuchsia", "pink",
   "rose", "slate", "gray", "zinc", "neutral", "stone"]

/-- The `{ style, className }` record returned by `getColorClass`; `style`
models the inline CSS custom-property assignments. -/
structure ColorClass where
  style : List (String × String)
  className : String
deriving DecidableEq

/-- The per-variant class template for a recognised palette colour `c`
(the `variants` record literal inside `getColorClass`). -/
def twVariants (c : String) : List (String × String) :=
  [("primary", "bg-" ++ c ++ "-600 text-white hover:bg-" ++ c ++
      "-700 dark:bg-" ++ c ++ "-500 dark:hover:bg-" ++ c ++ "-400 shadow-sm"),
   ("secondary", "bg-" ++ c ++ "-100 text-" ++ c ++ "-900 hover:bg-" ++ c ++
      "-200 dark:bg-" ++ c ++ "-900/40 dark:text-" ++ c ++
      "-100 dark:hover:bg-" ++ c ++ "-900/60"),
   ("tertiary", "bg-" ++ c ++ "-50 text-" ++ c ++ "-700 hover:bg-" ++ c ++
      "-100 dark:bg-" ++ c ++ "-900/20 dark:text-" ++ c ++ "-200"),
   ("outline", "border-2 border-" ++ c ++ "-500 text-" ++ c ++
      "-600 hover:bg-" ++ c ++ "-50 dark:border-" ++ c ++ "-400 dark:text-" ++
      c ++ "-400 dark:hover:bg-" ++ c ++ "-950"),
   ("ghost", "text-" ++ c ++ "-600 hover:bg-" ++ c ++ "-50 dark:text-" ++ c ++
      "-400 dark:hover:bg-" ++ c ++ "-900/50"),
   ("link", "text-" ++ c ++ "-600 underline-offset-4 hover:underline decoration-" ++
      c ++ "-600 p-0 h-auto dark:text-" ++ c ++ "-400"),
   ("grayscale", "bg-gray-200 text-gray-800 hover:bg-gray-300 dark:bg-gray-800 dark:text-gray-200 dark:hover:bg-gray-700"),
   ("binary", "bg-black text-white hover:bg-neutral-800 dark:bg-white dark:text-black dark:hover:bg-neutral-200")]

/-- `getColorClass(color, variant, isDark)` from `FlexTail-config.ts`:
colours outside `TAILWIND_COLORS` produce a `--btn-color` custom property and
variable-based classes; recognised colours use the `variants` record with an
unrecognised variant falling back to `primary`. -/
def getColorClass (color : String) (variant : String) (isDark : Bool) :
    ColorClass :=
  let isTailwind := TAILWIND_COLORS.contains color
  if !isTailwind then
    { style := [("--btn-color", color)],
      className :=
        if variant = "outline" then
          "border-[var(--btn-color)] text-[var(--btn-color)]"
        else if variant = "ghost" then
          "text-[var(--btn-color)] hover:bg-[var(--btn-color)]/10"
        else if variant = "link" then
          "text-[var(--btn-color)] decoration-[var(--btn-color)]"
        else "bg-[var(--btn-color)] text-white" }
  else
    { style := [],
      className :=
        ((twVariants color).lookup variant).getD
          (((twVariants color).lookup "primary").getD "") }

/-- The `colorMap` of `part_000`'s `getButtonClasses`: only `blue` and `gray`
are present, each with a `primary` and an `outline` entry. -/
def colorMapP0 (color : String) : Option (String × String) :=
  if color = "blue" then
    some ("bg-blue-600 text-white hover:bg-blue-700 dark:bg-blue-500 dark:hover:bg-blue-600 focus-visible:ring-blue-500",
      "border border-blue-600 text-blue-600 hover:bg-blue-50 dark:border-blue-500 dark:text-blue-400 dark:hover:bg-slate-700")
  else if color = "gray" then
    some ("bg-gray-600 text-white hover:bg-gray-700 dark:bg-gray-500 dark:hover:bg-gray-600 focus-visible:ring-gray-500",
      "border border-gray-300 text-gray-700 hover:bg-gray-50 dark:border-slate-600 dark:text-gray-300 dark:hover:bg-slate-700")
  else none

/-- The `sizeClasses` record of `part_000`'s `getButtonClasses`. -/
def sizeClassesP0 (size : String) : Option String :=
  List.lookup size
    [("xs", "h-6 px-2 text-xs"), ("sm", "h-8 px-3 text-sm"),
     ("md", "h-10 px-4 text-sm"), ("lg", "h-12 px-6 text-base"),
     ("xl", "h-14 px-8 text-lg")]

/-- The `shapeClasses` record of `part_000`'s `getButtonClasses`. -/
def shapeClassesP0 (shape : String) : Option String :=
  List.lookup shape
    [("square", "rounded-lg"), ("rounded", "rounded-full"),
     ("squircle", "rounded-xl"), ("circle", "rounded-full aspect-square p-0")]

/-- A possibly-undefined JS value passed into `cn`: `undefined` flattens to
nothing. -/
def optCV (o : Option String) : ClassValue :=
  match o with
  | some s => ClassValue.str s
  | none => ClassValue.undefv

/-- The `variantMap[variant] || variantMap.primary` resolution of `part_000`:
`primary` and `outline` use the colour map with fallback to `colorMap.blue`,
the other variants are colour-independent constants. -/
def variantClassP0 (variant color : String) : String :=
  let primaryClass := ((colorMapP0 color).map Prod.fst).getD
    (((colorMapP0 "blue").map Prod.fst).getD "")
  let outlineClass := ((colorMapP0 color).map Prod.snd).getD
    (((colorMapP0 "blue").map Prod.snd).getD "")
  if variant = "primary" then primaryClass
  else if variant = "outline" then outlineClass
  else if variant = "secondary" then
    "bg-gray-100 text-gray-700 hover:bg-gray-200 dark:bg-gray-800 dark:text-gray-100 dark:hover:bg-gray-700"
  else if variant = "subtle" then
    "bg-transparent text-gray-700 hover:bg-gray-100 dark:text-gray-300 dark:hover:bg-slate-700"
  else if variant = "ghost" then
    "bg-transparent text-gray-700 hover:text-blue-600 dark:text-gray-300 dark:hover:text-blue-400"
  else if variant = "link" then
    "bg-transparent text-blue-600 hover:text-blue-700 underline dark:text-blue-400 dark:hover:text-blue-300"
  else primaryClass

/-- `getButtonClasses` of `part_000` (lines 97-163). -/
def getButtonClassesP0 (variant size color shape : String)
    (loading disabled : Bool) : String :=
  let base := "font-semibold transition-all duration-200 focus:outline-none focus-visible:ring-4 focus-visible:ring-offset-2"
  let disabledClasses :=
    if disabled || loading then "opacity-50 cursor-not-allowed" else ""
  cn [ClassValue.str base, optCV (sizeClassesP0 size), optCV (shapeClassesP0 shape),
      ClassValue.str (variantClassP0 variant color), ClassValue.str disabledClasses,
      ClassValue.str (if loading then "pointer-events-none" else "")]

/-- Position tags assigned by `ButtonGroup` in `Button.tsx` (lines 124-132):
`single` for a one-element group, else `first` / `last` at the ends and
`middle` in between, by index. -/
def groupPositionsBtn (n : Nat) : List String :=
  (List.range n).map fun index =>
    if n = 1 then "single"
    else if index = 0 then "first"
    else if index = n - 1 then "last"
    else "middle"

/-- Position tags assigned by the `ButtonGroup` of `part_001`
(lines 339-345): `first` / `last` at the ends and `middle` in between; this
variant has no `single` tag. -/
def groupPositionsP001 (n : Nat) : List String :=
  (List.range n).map fun index =>
    if index = 0 then "first"
    else if index = n - 1 then "last"
    else "middle"

/-- A focusable-or-not descendant of the dialog, in document order, with the
attributes the focus logic queries. -/
structure FocusElem where
  id : Nat
  focusable : Bool
  isDefault : Bool
deriving DecidableEq

/-- The document's focus pointer: a dialog descendant, the dialog container
itself, or something outside the dialog. -/
inductive Focus where
  | el : Nat → Focus
  | container : Focus
  | outside : Focus
deriving DecidableEq

/-- The dialog's focus-relevant state: the open flag, the active element and
the captured pre-open trigger element (`triggerElementRef`). -/
structure DialogState where
  isOpen : Bool
  active : Focus
  trigger : Option Focus
deriving DecidableEq

/-- `a` is the first element of `l` satisfying `p` (the semantics of
`querySelector`). -/
def FirstSuch {α : Type} (p : α → Bool) (l : List α) (a : α) : Prop :=
  ∃ l1 l2, l = l1 ++ a :: l2 ∧ p a = true ∧ ∀ x ∈ l1, p x = false

/-- The focus target chosen when the dialog opens (`AlertDialog.tsx`
lines 322-339): the first element with `data-default="true"`, else the first
focusable descendant, else the dialog container. -/
def openFocusTarget (elems : List FocusElem) : Focus :=
  match elems.find? (fun e => e.isDefault) with
  | some e => Focus.el e.id
  | none =>
    match elems.find? (fun e => e.focusable) with
    | some e => Focus.el e.id
    | none => Focus.container

/-- The CLOSED→OPEN transition of the dialog effect: capture the currently
focused element in `triggerElementRef`, then move focus to the open-focus
target. -/
def openDialog (elems : List FocusElem) (st : DialogState) : DialogState :=
  { isOpen := true, trigger := some st.active, active := openFocusTarget elems }

/-- A keyboard event as discriminated by `handleKeyDown`: Escape, Tab with a
shift flag, or anything else. -/
inductive KeyEvt where
  | escape : KeyEvt
  | tab : Bool → KeyEvt
  | other : KeyEvt

/-- The focusable descendants of the dialog, in document order
(`querySelectorAll` with the focusable selector). -/
def focusables (elems : List FocusElem) : List FocusElem :=
  elems.filter (fun e => e.focusable)

/-- `handleKeyDown` of `AlertDialog.tsx` (lines 293-318): Escape requests
close; Tab with focus on the last focusable descendant wraps to the first
(and Shift+Tab from the first wraps to the last); any other combination
leaves the handler's state untouched.  Returns the new active focus and
whether close was requested. -/
def handleKeyDown (elems : List FocusElem) (evt : KeyEvt) (active : Focus) :
    Focus × Bool :=
  match evt with
  | .escape => (active, true)
  | .tab shift =>
    match focusables elems with
    | [] => (active, false)
    | f :: rest =>
      let lastE := (f :: rest).getLastD f
      if shift then
        if active = Focus.el f.id then (Focus.el lastE.id, false)
        else (active, false)
      else
        if active = Focus.el lastE.id then (Focus.el f.id, false)
        else (active, false)
  | .other => (active, false)

/-- An entry of the `actions` array passed to `AlertDialog`. -/
structure DialogAction where
  label : String
  isDefault : Bool
  isDestructive : Bool
  loading : Bool
  disabled : Bool
deriving DecidableEq

/-- The `data-default` flag computed for each rendered action button
(`AlertDialog.tsx` lines 405-431):
`action.isDefault || index === actions.length - 1`. -/
def renderedDefaultFlags (actions : List DialogAction) : List Bool :=
  actions.enum.map (fun p => p.2.isDefault || (p.1 == actions.length - 1))

/-- The per-colour class record of `COLOR_MAPS` in `part_002`. -/
structure ColorMapRec where
  primaryBg : String
  hoverPrimaryBg : String
  secondaryBg : String
  hoverSecondaryBg : String
  text : String
  focusRing : String
deriving DecidableEq

/-- `COLOR_MAPS` of `part_002` (blue, red, green, yellow, gray). -/
def COLOR_MAPS_P2 : List (String × ColorMapRec) :=
  [("blue", ⟨"bg-blue-600", "hover:bg-blue-700", "bg-blue-100 dark:bg-blue-900/50",
     "hover:bg-blue-200 dark:hover:bg-blue-800/50", "text-blue-600 dark:text-blue-300",
     "focus:ring-blue-500"⟩),
   ("red", ⟨"bg-red-600", "hover:bg-red-700", "bg-red-100 dark:bg-red-900/50",
     "hover:bg-red-200 dark:hover:bg-red-800/50", "text-red-600 dark:text-red-300",
     "focus:ring-red-500"⟩),
   ("green", ⟨"bg-green-600", "hover:bg-green-700", "bg-green-100 dark:bg-green-900/50",
     "hover:bg-green-200 dark:hover:bg-green-800/50", "text-green-600 dark:text-green-300",
     "focus:ring-green-500"⟩),
   ("yellow", ⟨"bg-yellow-600", "hover:bg-yellow-700", "bg-yellow-100 dark:bg-yellow-900/50",
     "hover:bg-yellow-200 dark:hover:bg-yellow-800/50", "text-yellow-600 dark:text-yellow-300",
     "focus:ring-yellow-500"⟩),
   ("gray", ⟨"bg-gray-700", "hover:bg-gray-800", "bg-gray-200 dark:bg-gray-700/50",
     "hover:bg-gray-300 dark:hover:bg-gray-600/50", "text-gray-700 dark:text-gray-200",
     "focus:ring-gray-400"⟩)]

/-- `getButtonClasses(variant, color, type, isDisabled)` of `part_002`
(lines 120-166).  When `isDisabled` it returns a fixed class string before
looking at any other argument; otherwise it resolves the colour record and
switches on the variant (the default switch case returns `""` without
touching the colour record).  A lookup of a colour absent from `COLOR_MAPS`
followed by a property access would throw in JS; that failure is modelled as
`none`. -/
def getButtonClassesP2 (variant color ty : String) (isDisabled : Bool) :
    Option String :=
  if isDisabled then
    some "bg-gray-200 text-gray-400 dark:bg-gray-700 dark:text-gray-500 cursor-not-allowed shadow-none"
  else
    let colors := COLOR_MAPS_P2.lookup color
    if variant = "primary" then
      colors.map fun c => cn [ClassValue.str c.primaryBg,
        ClassValue.str c.hoverPrimaryBg,
        ClassValue.str "text-white shadow-md shadow-black/10",
        ClassValue.str c.focusRing]
    else if variant = "secondary" then
      colors.map fun c => cn [ClassValue.str c.secondaryBg,
        ClassValue.str c.hoverSecondaryBg, ClassValue.str c.text,
        ClassValue.str "border border-transparent", ClassValue.str c.focusRing]
    else if variant = "ghost" then
      colors.map fun c => cn [ClassValue.str "bg-transparent hover:bg-gray-50 dark:hover:bg-gray-800",
        ClassValue.str c.text, ClassValue.str "border border-transparent",
        ClassValue.str c.focusRing]
    else if variant = "link" then
      colors.map fun c => cn [ClassValue.str "bg-transparent",
        ClassValue.str c.text, ClassValue.str "hover:underline",
        ClassValue.str "p-0 shadow-none", ClassValue.str c.focusRing]
    else some ""

/-- `Button.tsx` line 199: `isDisabled = disabled || loading`. -/
def buttonIsDisabled (disabled loading : Bool) : Bool := disabled || loading

/-! ## Lemmas about the flattener -/

theorem clsxList_append (l1 l2 : List ClassValue) :
    clsxList (l1 ++ l2) = clsxList l1 ++ clsxList l2 := by
  induction l1 with
  | nil => simp [clsxList]
  | cons v vs ih => simp [clsxList, ih]

theorem clsx_single (a : ClassValue) : clsx [a] = clsxOne a := by
  by_cases h : (clsxOne a).isEmpty
  · have h0 : clsxOne a = "" := (String.isEmpty_iff _).mp h
    simp [clsx, clsxOne, clsxList, List.filter, h, h0, joinSpace, joinWith]
  · have h0 : (clsxOne a).isEmpty = false := by simpa using h
    simp [clsx, clsxOne, clsxList, List.filter, h0, joinSpace, joinWith]

/-- Removing an entry that flattens to the empty string from anywhere in an
array leaves the flattened result unchanged. -/
theorem clsx_arr_skip (l1 l2 : List ClassValue) (e : ClassValue)
    (he : clsxOne e = "") :
    clsxOne (.arr (l1 ++ e :: l2)) = clsxOne (.arr (l1 ++ l2)) := by
  simp [clsxOne, clsxList_append, clsxList, List.filter_append, List.filter, he,
    show ("" : String).isEmpty = true from rfl]

/-! ## Lemmas about the merger -/

theorem mem_of_mem_mergeTokens {t : String} :
    ∀ {ts : List String}, t ∈ mergeTokens ts → t ∈ ts := by
  intro ts
  induction ts with
  | nil => simp [mergeTokens]
  | cons a rest ih =>
    intro h
    cases hca : categoryKey a with
    | none =>
      simp only [mergeTokens, hca] at h
      rcases List.mem_cons.mp h with h | h
      · exact h ▸ List.mem_cons_self a rest
      · exact List.mem_cons_of_mem a (ih h)
    | some k =>
      simp only [mergeTokens, hca] at h
      by_cases hany : rest.any (fun u => categoryKey u == some k) = true
      · rw [if_pos hany] at h
        exact List.mem_cons_of_mem a (ih h)
      · rw [if_neg hany] at h
        rcases List.mem_cons.mp h with h | h
        · exact h ▸ List.mem_cons_self a rest
        · exact List.mem_cons_of_mem a (ih h)

/-- The last-seen token of a recognised conflict group survives the merge. -/
theorem mergeTokens_keeps_last (k t2 : String) :
    ∀ ts : List String,
      (ts.filter (fun u => categoryKey u == some k)).getLast? = some t2 →
      t2 ∈ mergeTokens ts := by
  intro ts
  induction ts with
  | nil => intro h; simp at h
  | cons t rest ih =>
    intro hlast
    by_cases hct : categoryKey t = some k
    · rw [List.filter_cons, if_pos (by simp [hct])] at hlast
      by_cases hrest : rest.filter (fun u => categoryKey u == some k) = []
      · rw [hrest] at hlast
        simp only [List.getLast?_singleton, Option.some.injEq] at hlast
        subst hlast
        have hany : rest.any (fun u => categoryKey u == some k) = false := by
          rw [List.any_eq_false]
          intro u hu hcu
          have : u ∈ rest.filter (fun u => categoryKey u == some k) :=
            List.mem_filter.mpr ⟨hu, hcu⟩
          rw [hrest] at this
          exact absurd this (List.not_mem_nil u)
        simp [mergeTokens, hct, hany]
      · obtain ⟨b, l', hbl⟩ := List.exists_cons_of_ne_nil hrest
        rw [hbl, List.getLast?_cons_cons, ← hbl] at hlast
        have hany : rest.any (fun u => categoryKey u == some k) = true := by
          rw [List.any_eq_true]
          have hb : b ∈ rest.filter (fun u => categoryKey u == some k) := by
            rw [hbl]; exact List.mem_cons_self b l'
          exact ⟨b, (List.mem_filter.mp hb).1, (List.mem_filter.mp hb).2⟩
        simpa [mergeTokens, hct, hany] using ih hlast
    · rw [List.filter_cons, if_neg (by simp [hct])] at hlast
      have ht2 := ih hlast
      cases hc : categoryKey t with
      | none => simp only [mergeTokens, hc]; exact List.mem_cons_of_mem t ht2
      | some k' =>
        by_cases hany : rest.any (fun u => categoryKey u == some k') = true
        · simpa [mergeTokens, hc, hany] using ht2
        · simp only [mergeTokens, hc, if_neg hany]
          exact List.mem_cons_of_mem t ht2

/-- Any strictly earlier, distinct token of the same recognised conflict
group is removed by the merge. -/
theorem mergeTokens_drops_earlier (k t1 t2 : String)
    (hk1 : categoryKey t1 = some k) (hne : t1 ≠ t2) :
    ∀ ts : List String,
      (ts.filter (fun u => categoryKey u == some k)).getLast? = some t2 →
      t1 ∉ mergeTokens ts := by
  intro ts
  induction ts with
  | nil => intro h; simp [mergeTokens]
  | cons t rest ih =>
    intro hlast
    by_cases hct : categoryKey t = some k
    · rw [List.filter_cons, if_pos (by simp [hct])] at hlast
      by_cases hrest : rest.filter (fun u => categoryKey u == some k) = []
      · rw [hrest] at hlast
        simp only [List.getLast?_singleton, Option.some.injEq] at hlast
        subst hlast
        have hany : rest.any (fun u => categoryKey u == some k) = false := by
          rw [List.any_eq_false]
          intro u hu hcu
          have : u ∈ rest.filter (fun u => categoryKey u == some k) :=
            List.mem_filter.mpr ⟨hu, hcu⟩
          rw [hrest] at this
          exact absurd this (List.not_mem_nil u)
        simp only [mergeTokens, hct, if_neg (by simp [hany] : ¬rest.any
          (fun u => categoryKey u == some k) = true), List.mem_cons, not_or]
        refine ⟨hne, fun hmem => ?_⟩
        have h1 : t1 ∈ rest := mem_of_mem_mergeTokens hmem
        have : t1 ∈ rest.filter (fun u => categoryKey u == some k) :=
          List.mem_filter.mpr ⟨h1, by simp [hk1]⟩
        rw [hrest] at this
        exact absurd this (List.not_mem_nil t1)
      · obtain ⟨b, l', hbl⟩ := List.exists_cons_of_ne_nil hrest
        rw [hbl, List.getLast?_cons_cons, ← hbl] at hlast
        have hany : rest.any (fun u => categoryKey u == some k) = true := by
          rw [List.any_eq_true]
          have hb : b ∈ rest.filter (fun u => categoryKey u == some k) := by
            rw [hbl]; exact List.mem_cons_self b l'
          exact ⟨b, (List.mem_filter.mp hb).1, (List.mem_filter.mp hb).2⟩
        simpa [mergeTokens, hct, hany] using ih hlast
    · rw [List.filter_cons, if_neg (by simp [hct])] at hlast
      have ht1 := ih hlast
      have htne : t ≠ t1 := fun h => hct (h ▸ hk1)
      cases hc : categoryKey t with
      | none =>
        simp only [mergeTokens, hc, List.mem_cons, not_or]
        exact ⟨fun h => htne h.symm, ht1⟩
      | some k' =>
        by_cases hany : rest.any (fun u => categoryKey u == some k') = true
        · simpa [mergeTokens, hc, hany] using ht1
        · simp only [mergeTokens, hc, if_neg hany, List.mem_cons, not_or]
          exact ⟨fun h => htne h.symm, ht1⟩

theorem find?_of_firstSuch {α : Type} {p : α → Bool} {l : List α} {a : α}
    (h : FirstSuch p l a) : l.find? p = some a := by
  obtain ⟨l1, l2, rfl, hpa, hl1⟩ := h
  induction l1 with
  | nil => exact List.find?_cons_of_pos l2 hpa
  | cons x xs ih =>
    rw [List.cons_append,
      List.find?_cons_of_neg _ (by simp [hl1 x (List.mem_cons_self x xs)])]
    exact ih fun y hy => hl1 y (List.mem_cons_of_mem x hy)

/-! ## Claims -/

/-- **C1.** In any token sequence, when two distinct tokens share a
CategoryKey and the second is the group's last occurrence, the merged result
contains the later token and not the earlier one; in particular
`cn(["p-2", "p-4"])` is `"p-4"` (containing `"p-4"` and not `"p-2"`). -/
theorem c1_merge_last_write_wins (ts : List String) (t1 t2 k : String)
    (hk1 : categoryKey t1 = some k) (hk2 : categoryKey t2 = some k)
    (hne : t1 ≠ t2) (hmem : t1 ∈ ts)
    (hlast : (ts.filter (fun u => categoryKey u == some k)).getLast? = some t2) :
    t2 ∈ mergeTokens ts ∧ t1 ∉ mergeTokens ts ∧
    cn [ClassValue.str "p-2", ClassValue.str "p-4"] = "p-4" :=
  ⟨mergeTokens_keeps_last k t2 ts hlast,
   mergeTokens_drops_earlier k t1 t2 hk1 hne ts hlast,
   by decide⟩

/-- Witness for C1 at the spec's own example `["p-2", "p-4"]`. -/
theorem c1_witness :
    categoryKey "p-2" = some "p" ∧ categoryKey "p-4" = some "p" ∧
    "p-2" ∈ ["p-2", "p-4"] ∧
    (["p-2", "p-4"].filter
      (fun u => categoryKey u == some "p")).getLast? = some "p-4" ∧
    ("p-4" ∈ mergeTokens ["p-2", "p-4"] ∧ "p-2" ∉ mergeTokens ["p-2", "p-4"] ∧
      cn [ClassValue.str "p-2", ClassValue.str "p-4"] = "p-4") :=
  ⟨by decide, by decide, by decide, by decide,
   c1_merge_last_write_wins ["p-2", "p-4"] "p-2" "p-4" "p"
     (by decide) (by decide) (by decide) (by decide) (by decide)⟩

/-- **C2, counterexample.** The claim that the in-repo `clsx` coerces numbers
to their string form is false: the implementation has no number branch, so a
number falls through to `return ""` and contributes no token.  The token `"1"`
is absent from `flatten([1])` and from `flatten(["p-2", 1])`. -/
theorem c2_counterexample_number_dropped :
    clsx [ClassValue.num 1] = "" ∧
    clsx [ClassValue.num 1] ≠ "1" ∧
    clsx [ClassValue.str "p-2", ClassValue.num 1] = "p-2" := by
  refine ⟨rfl, ?_, rfl⟩
  decide

/-- **C2, amended.** Numbers appearing anywhere in a ClassInput tree are not
coerced to strings by the in-repo `clsx`; they are ignored, flattening to the
empty string, and removing a number entry from its enclosing sequence leaves
the flattened output unchanged. -/
theorem c2_amended_numbers_ignored :
    (∀ n : Int, clsxOne (ClassValue.num n) = "") ∧
    (∀ (l1 l2 : List ClassValue) (n : Int),
      clsxOne (.arr (l1 ++ ClassValue.num n :: l2)) = clsxOne (.arr (l1 ++ l2))) := by
  refine ⟨fun n => rfl, fun l1 l2 n => ?_⟩
  exact clsx_arr_skip l1 l2 _ rfl

/-- **C3.** The Flattener skips null, undefined, false and empty-string
entries; for a keyed boolean map it includes a key exactly when its value is
truthy, preserving the map's insertion order (the included keys form a
sublist of the keys in order); and
`flatten({"text-red-500": false, "text-blue-500": true})` yields exactly
`"text-blue-500"`. -/
theorem c3_flattener_skips_falsy_and_keyed_maps :
    (∀ (l1 l2 : List ClassValue) (e : ClassValue),
      (e = ClassValue.nullv ∨ e = ClassValue.undefv ∨
       e = ClassValue.bool false ∨ e = ClassValue.str "") →
      clsxOne (.arr (l1 ++ e :: l2)) = clsxOne (.arr (l1 ++ l2))) ∧
    (∀ (entries : List (String × Bool)) (k : String),
      k ∈ objKeys entries ↔ (k, true) ∈ entries) ∧
    (∀ entries : List (String × Bool),
      (objKeys entries).Sublist (entries.map Prod.fst)) ∧
    clsx [.obj [("text-red-500", false), ("text-blue-500", true)]] =
      "text-blue-500" := by
  refine ⟨?_, ?_, ?_, by decide⟩
  · rintro l1 l2 e (rfl | rfl | rfl | rfl) <;> exact clsx_arr_skip l1 l2 _ rfl
  · intro entries k
    simp only [objKeys, List.mem_map, List.mem_filter]
    constructor
    · rintro ⟨⟨k1, b⟩, ⟨hmem, hb⟩, rfl⟩
      simp only at hb
      subst hb
      exact hmem
    · intro h
      exact ⟨(k, true), ⟨h, rfl⟩, rfl⟩
  · intro entries
    exact (List.filter_sublist entries).map Prod.fst

/-- Witness for C3: a concrete null entry is skipped. -/
theorem c3_witness :
    (ClassValue.nullv = ClassValue.nullv ∨ ClassValue.nullv = ClassValue.undefv ∨
     ClassValue.nullv = ClassValue.bool false ∨ ClassValue.nullv = ClassValue.str "") ∧
    clsxOne (.arr ([ClassValue.str "a"] ++ ClassValue.nullv :: [ClassValue.str "b"])) =
      clsxOne (.arr ([ClassValue.str "a"] ++ [ClassValue.str "b"])) :=
  ⟨Or.inl rfl,
   c3_flattener_skips_falsy_and_keyed_maps.1 [ClassValue.str "a"]
     [ClassValue.str "b"] ClassValue.nullv (Or.inl rfl)⟩

/-- **C4.** For all ClassInput trees `a` and `b`, flattening is associative:
`flatten(a, b) = flatten(flatten(a), flatten(b))`, where `flatten` is the
in-repo `clsx` producing a space-joined string. -/
theorem c4_flatten_associative (a b : ClassValue) :
    clsx [a, b] = clsx [.str (clsx [a]), .str (clsx [b])] := by
  rw [clsx_single a, clsx_single b]
  simp [clsx, clsxOne, clsxList]

/-- **C5, counterexample.** `getColorClass` does not fall back to the
palette's default entry for an unrecognised colour: for the colour
`"hotpink"` it produces CSS-custom-property classes, different from the
classes of the default colour `"indigo"` (the consuming Button's default). -/
theorem c5_counterexample_getColorClass_no_fallback :
    (getColorClass "hotpink" "primary" false).className ≠
      (getColorClass "indigo" "primary" false).className ∧
    (getColorClass "hotpink" "primary" false).className =
      "bg-[var(--btn-color)] text-white" ∧
    (getColorClass "indigo" "primary" false).className =
      "bg-indigo-600 text-white hover:bg-indigo-700 dark:bg-indigo-500 dark:hover:bg-indigo-400 shadow-sm" := by
  refine ⟨?_, by decide, by decide⟩
  decide

/-- Aside for C5: `part_002`'s `getButtonClasses` has no colour fallback
either — an unrecognised colour with a colour-using variant fails (the JS
property access on `undefined` throws, modelled as `none`). -/
theorem getButtonClassesP2_no_color_fallback :
    getButtonClassesP2 "primary" "hotpink" "button" false = none := by
  decide

/-- **C5, amended.** `part_000`'s `getButtonClasses` does fall back: a colour
key outside its `colorMap` yields exactly the classes of the default colour
`blue`, for every variant (and size, shape, loading, disabled).
`getColorClass`, by contrast, does not fall back for unrecognised colours: it
emits a `--btn-color` custom property carrying the raw colour value and
variable-based utility classes. -/
theorem c5_amended_color_fallback (variant size color shape : String)
    (loading disabled : Bool)
    (hb : color ≠ "blue") (hg : color ≠ "gray")
    (hc : TAILWIND_COLORS.contains color = false) :
    getButtonClassesP0 variant size color shape loading disabled =
      getButtonClassesP0 variant size "blue" shape loading disabled ∧
    (getColorClass color variant false).style = [("--btn-color", color)] ∧
    (getColorClass color "primary" false).className =
      "bg-[var(--btn-color)] text-white" := by
  have hmem : color ∉ TAILWIND_COLORS := by simpa using hc
  refine ⟨?_, ?_, ?_⟩
  · simp [getButtonClassesP0, variantClassP0, colorMapP0, hb, hg]
  · simp [getColorClass, hmem]
  · simp [getColorClass, hmem]

/-- Witness for C5 (amended) at the concrete unrecognised colour
`"hotpink"`. -/
theorem c5_witness :
    ("hotpink" ≠ "blue" ∧ "hotpink" ≠ "gray" ∧
      TAILWIND_COLORS.contains "hotpink" = false) ∧
    (getButtonClassesP0 "primary" "md" "hotpink" "rounded" false false =
      getButtonClassesP0 "primary" "md" "blue" "rounded" false false ∧
    (getColorClass "hotpink" "primary" false).style =
      [("--btn-color", "hotpink")] ∧
    (getColorClass "hotpink" "primary" false).className =
      "bg-[var(--btn-color)] text-white") :=
  ⟨⟨by decide, by decide, by decide⟩,
   c5_amended_color_fallback "primary" "md" "hotpink" "rounded" false false
     (by decide) (by decide) (by decide)⟩

/-- **C6, counterexample.** The repository's second `ButtonGroup`
(`part_001`) tags the sole child of a one-element group `first`, not
`single`; its position type does not even contain `single`. -/
theorem c6_counterexample_p001_single :
    groupPositionsP001 1 = ["first"] ∧ groupPositionsP001 1 ≠ ["single"] := by
  constructor
  · decide
  · decide

/-- **C6, amended.** `Button.tsx`'s `ButtonGroup` tags a group of 3 children
`[first, middle, last]` and a group of 1 child `[single]`; `part_001`'s
`ButtonGroup` also tags a group of 3 `[first, middle, last]`, but tags a
group of 1 `[first]` (it has no `single` tag). -/
theorem c6_amended_group_positions :
    groupPositionsBtn 3 = ["first", "middle", "last"] ∧
    groupPositionsBtn 1 = ["single"] ∧
    groupPositionsP001 3 = ["first", "middle", "last"] ∧
    groupPositionsP001 1 = ["first"] := by
  refine ⟨by decide, by decide, by decide, by decide⟩

/-- **C7.** Opening the dialog captures the previously focused element and
moves focus to the first element marked default when one exists, otherwise to
the first focusable descendant, otherwise to the dialog container itself. -/
theorem c7_open_focus (elems : List FocusElem) (st : DialogState)
    (hclosed : st.isOpen = false) :
    (openDialog elems st).trigger = some st.active ∧
    (∀ e, FirstSuch (fun e => e.isDefault) elems e →
      (openDialog elems st).active = Focus.el e.id) ∧
    ((∀ x ∈ elems, x.isDefault = false) →
      ∀ e, FirstSuch (fun e => e.focusable) elems e →
        (openDialog elems st).active = Focus.el e.id) ∧
    ((∀ x ∈ elems, x.isDefault = false ∧ x.focusable = false) →
      (openDialog elems st).active = Focus.container) := by
  refine ⟨rfl, ?_, ?_, ?_⟩
  · intro e hf
    simp [openDialog, openFocusTarget, find?_of_firstSuch hf]
  · intro hnd e hf
    have h1 : elems.find? (fun e => e.isDefault) = none :=
      List.find?_eq_none.mpr (by intro x hx; simp [hnd x hx])
    simp [openDialog, openFocusTarget, h1, find?_of_firstSuch hf]
  · intro hall
    have h1 : elems.find? (fun e => e.isDefault) = none :=
      List.find?_eq_none.mpr (by intro x hx; simp [(hall x hx).1])
    have h2 : elems.find? (fun e => e.focusable) = none :=
      List.find?_eq_none.mpr (by intro x hx; simp [(hall x hx).2])
    simp [openDialog, openFocusTarget, h1, h2]

/-- Witness for C7: a closed dialog with a default button in second place. -/
theorem c7_witness :
    ((DialogState.mk false Focus.outside none).isOpen = false) ∧
    FirstSuch (fun e => e.isDefault)
      [FocusElem.mk 0 true false, FocusElem.mk 1 true true]
      (FocusElem.mk 1 true true) ∧
    (openDialog [FocusElem.mk 0 true false, FocusElem.mk 1 true true]
        (DialogState.mk false Focus.outside none)).active = Focus.el 1 :=
  ⟨rfl,
   ⟨[FocusElem.mk 0 true false], [], rfl, rfl, by decide⟩,
   (c7_open_focus [FocusElem.mk 0 true false, FocusElem.mk 1 true true]
       (DialogState.mk false Focus.outside none) rfl).2.1
     (FocusElem.mk 1 true true)
     ⟨[FocusElem.mk 0 true false], [], rfl, rfl, by decide⟩⟩

/-- **C8.** While the dialog is open, a Tab press with focus on the last
focusable descendant moves focus to the first focusable descendant, and a
Shift+Tab press with focus on the first focusable descendant moves focus to
the last. -/
theorem c8_tab_wraps (elems : List FocusElem) (f l : FocusElem)
    (hf : (focusables elems).head? = some f)
    (hl : (focusables elems).getLast? = some l) :
    (handleKeyDown elems (.tab false) (Focus.el l.id)).1 = Focus.el f.id ∧
    (handleKeyDown elems (.tab true) (Focus.el f.id)).1 = Focus.el l.id := by
  cases hfs : focusables elems with
  | nil => rw [hfs] at hf; exact absurd hf (by simp)
  | cons a rest =>
    rw [hfs] at hf hl
    have hfa : f = a := by simpa using hf.symm
    have hlast : (a :: rest).getLast?.getD a = l := by rw [hl]; rfl
    subst hfa
    constructor
    · simp [handleKeyDown, hfs, List.getLastD_eq_getLast?, hlast]
    · simp [handleKeyDown, hfs, List.getLastD_eq_getLast?, hlast]

/-- Witness for C8 on a dialog whose focusable descendants are elements 0
and 2. -/
theorem c8_witness :
    (focusables [FocusElem.mk 0 true false, FocusElem.mk 1 false false,
        FocusElem.mk 2 true false]).head? = some (FocusElem.mk 0 true false) ∧
    (focusables [FocusElem.mk 0 true false, FocusElem.mk 1 false false,
        FocusElem.mk 2 true false]).getLast? = some (FocusElem.mk 2 true false) ∧
    ((handleKeyDown [FocusElem.mk 0 true false, FocusElem.mk 1 false false,
          FocusElem.mk 2 true false] (.tab false) (Focus.el 2)).1 = Focus.el 0 ∧
      (handleKeyDown [FocusElem.mk 0 true false, FocusElem.mk 1 false false,
          FocusElem.mk 2 true false] (.tab true) (Focus.el 0)).1 = Focus.el 2) :=
  ⟨by decide, by decide,
   c8_tab_wraps
     [FocusElem.mk 0 true false, FocusElem.mk 1 false false,
      FocusElem.mk 2 true false]
     (FocusElem.mk 0 true false) (FocusElem.mk 2 true false)
     (by decide) (by decide)⟩

/-- **C9.** For every non-empty actions list, the button rendered for the
last action carries `data-default="true"` — even when no action has
`isDefault` set — so an open dialog with actions always has an element marked
default. -/
theorem c9_last_action_marked_default (actions : List DialogAction)
    (h : actions ≠ []) :
    (renderedDefaultFlags actions).getLast? = some true ∧
    true ∈ renderedDefaultFlags actions := by
  have hlen : actions.length ≠ 0 := by
    intro hz; exact h (List.length_eq_zero.mp hz)
  have hfl : (renderedDefaultFlags actions).length = actions.length := by
    simp [renderedDefaultFlags, List.enum_length]
  have hget : (renderedDefaultFlags actions).getLast? = some true := by
    rw [List.getLast?_eq_getElem? _, hfl]
    rw [renderedDefaultFlags, List.getElem?_map, List.getElem?_enum]
    have hlt : actions.length - 1 < actions.length := by omega
    rw [List.getElem?_eq_getElem hlt]
    simp
  exact ⟨hget, List.mem_of_mem_getLast? hget⟩

/-- Witness for C9 with two actions, none marked default by the caller. -/
theorem c9_witness :
    ([DialogAction.mk "Cancel" false false false false,
      DialogAction.mk "OK" false false false false] ≠
        ([] : List DialogAction)) ∧
    ((renderedDefaultFlags
        [DialogAction.mk "Cancel" false false false false,
         DialogAction.mk "OK" false false false false]).getLast? = some true ∧
      true ∈ renderedDefaultFlags
        [DialogAction.mk "Cancel" false false false false,
         DialogAction.mk "OK" false false false false]) :=
  ⟨by decide,
   c9_last_action_marked_default
     [DialogAction.mk "Cancel" false false false false,
      DialogAction.mk "OK" false false false false] (by decide)⟩

/-- **C10.** For every Button with `disabled` or `loading` true,
`getButtonClasses` returns one fixed disabled class string, independent of
the variant, colour and type arguments: disabled styling completely
overrides the requested variant and colour. -/
theorem c10_disabled_overrides (variant color ty : String)
    (disabled loading : Bool) (h : disabled = true ∨ loading = true) :
    getButtonClassesP2 variant color ty (buttonIsDisabled disabled loading) =
      some "bg-gray-200 text-gray-400 dark:bg-gray-700 dark:text-gray-500 cursor-not-allowed shadow-none" := by
  have hd : buttonIsDisabled disabled loading = true := by
    rcases h with h | h <;> simp [buttonIsDisabled, h]
  simp [getButtonClassesP2, hd]

/-- Witness for C10: a loading ghost green button. -/
theorem c10_witness :
    (false = true ∨ true = true) ∧
    getButtonClassesP2 "ghost" "green" "submit" (buttonIsDisabled false true) =
      some "bg-gray-200 text-gray-400 dark:bg-gray-700 dark:text-gray-500 cursor-not-allowed shadow-none" :=
  ⟨Or.inr rfl, c10_disabled_overrides "ghost" "green" "submit" false true (Or.inr rfl)⟩

end FlexTail
